import Mathlib

/-!
Verification of the `/v3/OS-FEDERATION` flask resource layer
(`keystone/api/os_federation.py`).

The source is a thin API surface: Python dictionaries are embedded as
association lists (insertion-ordered, key update in place, last value wins,
exactly the semantics of CPython dicts), fallible operations return
`Except Err`, and external collaborators (the RBAC enforcer, the schema
validator, the provider/store layer, the assignment lookups, the token
pipeline, the file system) are passed in as explicit function parameters.
-/

namespace OSFed

/-! ## Python dict model: insertion-ordered association lists -/

/-- Lookup of the first binding of key `k`, the value a Python `d[k]` /
`d.get(k)` returns (with the no-duplicate-keys invariant dicts maintain,
the first binding is the only one). -/
def alookup {κ α : Type} [DecidableEq κ] : List (κ × α) → κ → Option α
  | [], _ => none
  | p :: m, k => if p.1 = k then some p.2 else alookup m k

/-- Python `d[k] = v`: update the binding in place if the key is present
(keeping its position), otherwise append a fresh binding at the end. -/
def aupsert {κ α : Type} [DecidableEq κ] : List (κ × α) → κ → α → List (κ × α)
  | [], k, v => [(k, v)]
  | p :: m, k, v => if p.1 = k then (k, v) :: m else p :: aupsert m k v

/-- Python `d.setdefault(k, v)`: insert `v` under `k` only when `k` is absent. -/
def asetdefault {κ α : Type} [DecidableEq κ] (m : List (κ × α)) (k : κ) (v : α) :
    List (κ × α) :=
  match alookup m k with
  | some _ => m
  | none => m ++ [(k, v)]

/-- First-`some` choice on options (how a lookup walks list concatenations). -/
def oalt {α : Type} : Option α → Option α → Option α
  | some v, _ => some v
  | none, o => o

theorem alookup_append {κ α : Type} [DecidableEq κ] (m m2 : List (κ × α)) (k : κ) :
    alookup (m ++ m2) k = oalt (alookup m k) (alookup m2 k) := by
  induction m with
  | nil => simp [alookup, oalt]
  | cons p m ih =>
    by_cases h : p.1 = k <;> simp [alookup, oalt, h, ih]

theorem alookup_aupsert_self {κ α : Type} [DecidableEq κ]
    (m : List (κ × α)) (k : κ) (v : α) :
    alookup (aupsert m k v) k = some v := by
  induction m with
  | nil => simp [alookup, aupsert]
  | cons p m ih =>
    by_cases h : p.1 = k <;> simp [alookup, aupsert, h, ih]

theorem alookup_aupsert_ne {κ α : Type} [DecidableEq κ]
    (m : List (κ × α)) (k k2 : κ) (v : α) (hne : k2 ≠ k) :
    alookup (aupsert m k v) k2 = alookup m k2 := by
  have hne2 : k ≠ k2 := Ne.symm hne
  induction m with
  | nil => simp [alookup, aupsert, hne2]
  | cons p m ih =>
    by_cases h : p.1 = k
    · by_cases h2 : p.1 = k2
      · exact absurd (h2.symm.trans h) hne
      · simp [alookup, aupsert, h, h2, hne2]
    · by_cases h2 : p.1 = k2 <;> simp [alookup, aupsert, h, h2, ih, hne, hne2]

theorem alookup_asetdefault_none {κ α : Type} [DecidableEq κ]
    (m : List (κ × α)) (k : κ) (v : α) (h : alookup m k = none) :
    alookup (asetdefault m k v) k = some v := by
  simp [asetdefault, h, alookup_append, alookup, oalt]

theorem asetdefault_some {κ α : Type} [DecidableEq κ]
    (m : List (κ × α)) (k : κ) (v w : α) (h : alookup m k = some w) :
    asetdefault m k v = m := by
  simp [asetdefault, h]

theorem alookup_asetdefault_ne {κ α : Type} [DecidableEq κ]
    (m : List (κ × α)) (k k2 : κ) (v : α) (hne : k2 ≠ k) :
    alookup (asetdefault m k v) k2 = alookup m k2 := by
  unfold asetdefault
  cases h : alookup m k with
  | some w => rfl
  | none =>
    rw [alookup_append]
    cases h2 : alookup m k2 with
    | some w => simp [oalt]
    | none => simp [oalt, alookup, Ne.symm hne]

/-- Restriction of a dict to a set of allowed keys (`filter_params`). -/
def filterKeys {κ α : Type} [DecidableEq κ] (pub : List κ) (m : List (κ × α)) :
    List (κ × α) :=
  m.filter (fun p => decide (p.1 ∈ pub))

theorem alookup_filterKeys {κ α : Type} [DecidableEq κ]
    (pub : List κ) (m : List (κ × α)) (k : κ) :
    alookup (filterKeys pub m) k =
      if k ∈ pub then alookup m k else none := by
  induction m with
  | nil => simp [filterKeys, alookup]
  | cons p m ih =>
    by_cases hp : p.1 ∈ pub
    · by_cases hk : p.1 = k
      · subst hk
        simp [filterKeys, List.filter, hp, alookup, ih]
      · simp only [filterKeys, List.filter] at ih ⊢
        simp [hp, alookup, hk, ih]
    · by_cases hk : p.1 = k
      · subst hk
        simp only [filterKeys, List.filter] at ih ⊢
        simp [hp, alookup, ih]
      · simp only [filterKeys, List.filter] at ih ⊢
        simp [hp, alookup, hk, ih]

/-! ## Error taxonomy (keystone.exception classes raised or caught here) -/

/-- Exceptions surfaced by this API surface. `userNotFound` is
`exception.UserNotFound`, `metadataFileError` is `exception.MetadataFileError`
(carrying the reason string of the underlying read failure), and `other`
stands for any further exception an external collaborator may raise. -/
inductive Err where
  | notFound
  | userNotFound
  | conflict
  | validationError
  | forbidden
  | metadataFileError (reason : String)
  | other (code : Nat)
deriving DecidableEq

/-! ## Resource records

A resource record returned by the assignment lookups is opaque except for
its mandatory `id` field; `data` stands for all remaining fields. -/

structure FRef where
  id : Nat
  data : Nat
deriving DecidableEq

/-! ## `_combine_lists_uniquely` (os_federation.py lines 48-54) -/

/-- The Python dict comprehension accumulator: insert each record keyed by
its `id`, left to right, later records overwriting earlier ones in place. -/
def pyDictAux : List (Nat × FRef) → List FRef → List (Nat × FRef)
  | m, [] => m
  | m, x :: xs => pyDictAux (aupsert m x.id x) xs

/-- The Python expression `\x7bx['id']: x for x in xs\x7d` as an
insertion-ordered association list. -/
def pyDict (xs : List FRef) : List (Nat × FRef) := pyDictAux [] xs

/-- `_combine_lists_uniquely(a, b)`: when both lists are truthy (non-empty)
build the id-keyed dict of `a + b` and take its values, otherwise return
`a or b` (Python truthiness: `a` when non-empty, else `b`). -/
def combine_lists_uniquely (a b : List FRef) : List FRef :=
  if a ≠ [] ∧ b ≠ [] then (pyDict (a ++ b)).map Prod.snd
  else if a ≠ [] then a else b

/-- The last record of `xs` whose `id` equals `k` (the one a last-seen-wins
dedup must keep). -/
def lastWith : List FRef → Nat → Option FRef
  | [], _ => none
  | x :: xs, k =>
    match lastWith xs k with
    | some v => some v
    | none => if x.id = k then some x else none

/-- Key list of an association list. -/
def akeys {κ α : Type} (m : List (κ × α)) : List κ := m.map Prod.fst

theorem mem_akeys_aupsert {κ α : Type} [DecidableEq κ]
    (m : List (κ × α)) (k k0 : κ) (v : α) :
    k ∈ akeys (aupsert m k0 v) ↔ k = k0 ∨ k ∈ akeys m := by
  induction m with
  | nil => simp [akeys, aupsert]
  | cons p m ih =>
    simp only [aupsert]
    by_cases h : p.1 = k0
    · rw [if_pos h]
      subst h
      simp only [akeys, List.map_cons, List.mem_cons]
      tauto
    · rw [if_neg h]
      simp only [akeys, List.map_cons, List.mem_cons] at ih ⊢
      rw [ih]
      tauto

theorem nodup_akeys_aupsert {κ α : Type} [DecidableEq κ]
    (m : List (κ × α)) (k0 : κ) (v : α) (h : (akeys m).Nodup) :
    (akeys (aupsert m k0 v)).Nodup := by
  induction m with
  | nil => simp [akeys, aupsert]
  | cons p m ih =>
    simp only [akeys, List.map_cons, List.nodup_cons] at h
    by_cases hp : p.1 = k0
    · subst hp
      simpa [aupsert, akeys] using h
    · simp only [aupsert, if_neg hp, akeys, List.map_cons, List.nodup_cons]
      refine ⟨?_, ih h.2⟩
      intro hmem
      rcases (mem_akeys_aupsert m p.1 k0 v).mp hmem with rfl | hm
      · exact hp rfl
      · exact h.1 hm

theorem pairOk_aupsert (m : List (Nat × FRef)) (x : FRef)
    (h : ∀ p ∈ m, p.1 = p.2.id) :
    ∀ p ∈ aupsert m x.id x, p.1 = p.2.id := by
  induction m with
  | nil =>
    intro p hp
    simp only [aupsert, List.mem_singleton] at hp
    subst hp; rfl
  | cons q m ih =>
    intro p hp
    by_cases hq : q.1 = x.id
    · simp only [aupsert, if_pos hq, List.mem_cons] at hp
      rcases hp with rfl | hm
      · rfl
      · exact h p (List.mem_cons_of_mem q hm)
    · simp only [aupsert, if_neg hq, List.mem_cons] at hp
      rcases hp with rfl | hm
      · exact h p (List.mem_cons_self p m)
      · exact ih (fun r hr => h r (List.mem_cons_of_mem q hr)) p hm

theorem alookup_mem_nodup (m : List (Nat × FRef)) (k : Nat) (v : FRef)
    (hnd : (akeys m).Nodup) (hmem : (k, v) ∈ m) :
    alookup m k = some v := by
  induction m with
  | nil => cases hmem
  | cons p m ih =>
    simp only [akeys, List.map_cons, List.nodup_cons] at hnd
    rcases List.mem_cons.mp hmem with rfl | hm
    · simp [alookup]
    · have hk : k ∈ akeys m := by
        simpa [akeys] using List.mem_map_of_mem Prod.fst hm
      have hp : p.1 ≠ k := by
        intro hh; subst hh; exact hnd.1 hk
      simp [alookup, hp, ih hnd.2 hm]

theorem mem_akeys_pyDictAux (m : List (Nat × FRef)) (xs : List FRef) (k : Nat) :
    k ∈ akeys (pyDictAux m xs) ↔ k ∈ akeys m ∨ k ∈ xs.map FRef.id := by
  induction xs generalizing m with
  | nil => simp [pyDictAux]
  | cons x xs ih =>
    simp only [pyDictAux, ih, mem_akeys_aupsert, List.map_cons, List.mem_cons]
    tauto

theorem nodup_akeys_pyDictAux (m : List (Nat × FRef)) (xs : List FRef)
    (h : (akeys m).Nodup) : (akeys (pyDictAux m xs)).Nodup := by
  induction xs generalizing m with
  | nil => exact h
  | cons x xs ih => exact ih _ (nodup_akeys_aupsert m x.id x h)

theorem pairOk_pyDictAux (m : List (Nat × FRef)) (xs : List FRef)
    (h : ∀ p ∈ m, p.1 = p.2.id) :
    ∀ p ∈ pyDictAux m xs, p.1 = p.2.id := by
  induction xs generalizing m with
  | nil => exact h
  | cons x xs ih => exact ih _ (pairOk_aupsert m x h)

theorem alookup_pyDictAux (m : List (Nat × FRef)) (xs : List FRef) (k : Nat) :
    alookup (pyDictAux m xs) k = oalt (lastWith xs k) (alookup m k) := by
  induction xs generalizing m with
  | nil => simp [pyDictAux, lastWith, oalt]
  | cons x xs ih =>
    simp only [pyDictAux, lastWith, ih]
    cases hl : lastWith xs k with
    | some v => simp [oalt]
    | none =>
      by_cases hx : x.id = k
      · subst hx
        simp [oalt, alookup_aupsert_self]
      · simp [oalt, hx, alookup_aupsert_ne m x.id k x (Ne.symm hx)]

theorem ids_of_values (m : List (Nat × FRef)) (h : ∀ p ∈ m, p.1 = p.2.id) :
    (m.map Prod.snd).map FRef.id = akeys m := by
  rw [List.map_map, akeys]
  exact (List.map_congr_left (fun p hp => (h p hp).symm))

/-! ## Request/response representations -/

/-- The WSGI environ of the inbound flask request, opaque to this layer. -/
abbrev Env := List (String × String)

/-- A header multimap. -/
abbrev Headers := List (String × String)

/-- The webob response the compat auth controller returns:
`status_code`, `headers` and `body`. -/
structure WebobResp where
  status_code : Nat
  headers : Headers
  body : String
deriving DecidableEq

/-- The flask response this API surface returns. -/
structure FlaskResp where
  status : Nat
  headers : Headers
  body : String
deriving DecidableEq

/-- The translation at os_federation.py lines 516-518:
`flask.make_response(webob_resp.body, webob_resp.status_code)` (a fresh flask
response carrying whatever default headers flask installs, passed in here as
`defaults`) followed by
`flask_resp.headers.extend(webob_resp.headers.dict_of_lists())`. -/
def flaskFromWebob (defaults : Headers) (w : WebobResp) : FlaskResp :=
  { status := w.status_code, headers := defaults ++ w.headers, body := w.body }

/-- `OSFederationAuthResource._construct_webob_request`: wrap the flask
environ into a webob request; the ambient context passes through unchanged. -/
def construct_webob_request (env : Env) : Env := env

/-! ## The synthesized auth payload (os_federation.py lines 502-510) -/

/-- A value of the inner `identity` dict: either the `methods` list or the
per-protocol object carrying `identity_provider` and `protocol`. -/
inductive IdentVal where
  | methodsList (ms : List String)
  | protoObj (identity_provider : String) (protocol : String)
deriving DecidableEq

/-- The generic auth payload: a dict with single key `identity` whose value
is itself a dict. -/
structure AuthPayload where
  identity : List (String × IdentVal)
deriving DecidableEq

/-- The payload the source's dict literal builds: keys are inserted left to
right with Python dict-display semantics, so a later duplicate key
overwrites the earlier binding in place. -/
def authPayloadCode (idp_id protocol_id : String) : AuthPayload :=
  { identity :=
      aupsert
        (aupsert [] "methods" (IdentVal.methodsList [protocol_id]))
        protocol_id (IdentVal.protoObj idp_id protocol_id) }

/-- The payload shape as the spec displays it: two distinct entries,
`methods` first, then the protocol object under `protocol_id`. -/
def authPayloadSpec (idp_id protocol_id : String) : AuthPayload :=
  { identity :=
      [("methods", IdentVal.methodsList [protocol_id]),
       (protocol_id, IdentVal.protoObj idp_id protocol_id)] }

/-! ## Authentication Bridge (`OSFederationAuthResource`) -/

/-- `OSFederationAuthResource._auth`: synthesize the generic auth payload,
submit it together with the (wrapped) ambient request to the compat auth
controller `authenticate_for_token`, and deconstruct the webob response into
a flask response. The controller and flask's fresh-response defaults are
external collaborators passed as parameters. -/
def osFederationAuthAuth (authenticate_for_token : AuthPayload → Env → WebobResp)
    (defaults : Headers) (env : Env) (idp_id protocol_id : String) : FlaskResp :=
  let auth := authPayloadCode idp_id protocol_id
  flaskFromWebob defaults
    (authenticate_for_token auth (construct_webob_request env))

/-- `OSFederationAuthResource.get`: delegates to `_auth`. -/
def osFederationAuthGet (authenticate_for_token : AuthPayload → Env → WebobResp)
    (defaults : Headers) (env : Env) (idp_id protocol_id : String) : FlaskResp :=
  osFederationAuthAuth authenticate_for_token defaults env idp_id protocol_id

/-- `OSFederationAuthResource.post`: delegates to `_auth`. -/
def osFederationAuthPost (authenticate_for_token : AuthPayload → Env → WebobResp)
    (defaults : Headers) (env : Env) (idp_id protocol_id : String) : FlaskResp :=
  osFederationAuthAuth authenticate_for_token defaults env idp_id protocol_id

/-! ## Registry data model

Records handed to and returned by the provider layer are Python dicts;
values are booleans, strings or string lists. -/

/-- A field value of a registry record. -/
inductive Val where
  | vb (b : Bool)
  | vs (s : String)
  | vl (xs : List String)
deriving DecidableEq

/-- A registry record / request body: a Python dict. -/
abbrev Dict := List (String × Val)

/-- A keyed store of records, as the provider layer maintains it. -/
abbrev Registry := List (String × Dict)

/-- `IdentityProvidersResource._public_parameters`. -/
def idpPublicParams : List String :=
  ["id", "enabled", "description", "remote_ids", "links", "domain_id"]

/-- `ServiceProvidersResource._public_parameters`. -/
def spPublicParams : List String :=
  ["auth_url", "id", "enabled", "description", "links",
   "relay_state_prefix", "sp_url"]

/-- The `remote_ids` list of a record (empty when absent). -/
def remoteIdsOf (d : Dict) : List String :=
  match alookup d "remote_ids" with
  | some (Val.vl xs) => xs
  | _ => []

/-! ## Identity Provider Registry -/

/-- Modelled from the spec: `federation_api.create_idp`
(keystone/federation/core.py, not under src/). Per spec section 4.1, create
fails with Conflict when the id already exists or when any entry of the new
record's `remote_ids` collides with an existing IdP's `remote_ids`;
otherwise the record is stored under the caller-assigned id, with the id
written into the record. -/
def create_idp (st : Registry) (idp_id : String) (idp : Dict) :
    Except Err (Registry × Dict) :=
  match alookup st idp_id with
  | some _ => .error .conflict
  | none =>
    if st.any (fun p => (remoteIdsOf p.2).any
        (fun r => (remoteIdsOf idp).contains r)) then
      .error .conflict
    else
      let ref := aupsert idp "id" (Val.vs idp_id)
      .ok (st ++ [(idp_id, ref)], ref)

/-- Modelled from the spec: `federation_api.get_idp`
(keystone/federation/core.py, not under src/); a simple keyed lookup
raising NotFound when absent. -/
def get_idp (st : Registry) (idp_id : String) : Except Err Dict :=
  match alookup st idp_id with
  | some ref => .ok ref
  | none => .error .notFound

/-- `IdentityProvidersResource.put` (os_federation.py lines 128-141):
enforce the policy gate, schema-validate the body, default `enabled` to
false, create through the provider layer, and return the wrapped
(public-parameter-filtered) record with status 201. The link-building side
of `wrap_member` is a URL presentation concern handled by external flask
helpers and is not modelled. -/
def idpPut (enforce : String → Bool) (schemaOk : Dict → Bool)
    (st : Registry) (idp_id : String) (body : Dict) :
    Except Err (Registry × Dict × Nat) :=
  if enforce "identity:create_identity_provider" then
    if schemaOk body then
      let idp := asetdefault body "enabled" (Val.vb false)
      match create_idp st idp_id idp with
      | .ok (st2, ref) => .ok (st2, filterKeys idpPublicParams ref, 201)
      | .error e => .error e
    else .error .validationError
  else .error .forbidden

/-- `IdentityProvidersResource._get_idp` (lines 102-109): enforce the policy
gate, fetch, and wrap. -/
def idpGet (enforce : String → Bool) (st : Registry) (idp_id : String) :
    Except Err Dict :=
  if enforce "identity:get_identity_provider" then
    match get_idp st idp_id with
    | .ok ref => .ok (filterKeys idpPublicParams ref)
    | .error e => .error e
  else .error .forbidden

/-! ## Service Provider Registry -/

/-- Modelled from the spec: `federation_api.create_sp`
(keystone/federation/core.py, not under src/). Same keyed-store create as
the IdP registry but without the `remote_ids` cross-uniqueness rule. -/
def create_sp (st : Registry) (sp_id : String) (sp : Dict) :
    Except Err (Registry × Dict) :=
  match alookup st sp_id with
  | some _ => .error .conflict
  | none =>
    let ref := aupsert sp "id" (Val.vs sp_id)
    .ok (st ++ [(sp_id, ref)], ref)

/-- Modelled from the spec: `federation_api.get_sp`
(keystone/federation/core.py, not under src/). -/
def get_sp (st : Registry) (sp_id : String) : Except Err Dict :=
  match alookup st sp_id with
  | some ref => .ok ref
  | none => .error .notFound

/-- `ServiceProvidersResource.put` (lines 346-359): enforce, schema-validate,
default `enabled` to false and `relay_state_prefix` to the process-wide
configured `CONF.saml.relay_state_prefix` (passed in as `confRelay`), then
create through the provider layer and return the wrapped record with 201. -/
def spPut (enforce : String → Bool) (schemaOk : Dict → Bool)
    (confRelay : String) (st : Registry) (sp_id : String) (body : Dict) :
    Except Err (Registry × Dict × Nat) :=
  if enforce "identity:create_service_provider" then
    if schemaOk body then
      let sp := asetdefault body "enabled" (Val.vb false)
      let sp := asetdefault sp "relay_state_prefix" (Val.vs confRelay)
      match create_sp st sp_id sp with
      | .ok (st2, ref) => .ok (st2, filterKeys spPublicParams ref, 201)
      | .error e => .error e
    else .error .validationError
  else .error .forbidden

/-- `ServiceProvidersResource._get_service_provider` (lines 324-330). -/
def spGet (enforce : String → Bool) (st : Registry) (sp_id : String) :
    Except Err Dict :=
  if enforce "identity:get_service_provider" then
    match get_sp st sp_id with
    | .ok ref => .ok (filterKeys spPublicParams ref)
    | .error e => .error e
  else .error .forbidden

/-! ## Mapping Registry -/

/-- `MappingResource.put` (lines 275-286): enforce the policy gate, run
`utils.validate_mapping_structure` on the submitted document, then create
through the provider layer. The validator (keystone/federation/utils.py,
not under src/) is modelled from the spec as a pure pass/fail predicate
that raises ValidationError on structural violation; the store is an
abstract keyed create passed as a parameter. -/
def mappingPut {σ : Type} (enforce : String → Bool)
    (validate_mapping_structure : Dict → Bool)
    (create_mapping : σ → String → Dict → Except Err (σ × Dict))
    (st : σ) (mapping_id : String) (body : Dict) :
    Except Err (σ × Dict × Nat) :=
  if enforce "identity:create_mapping" then
    if validate_mapping_structure body then
      match create_mapping st mapping_id body with
      | .ok (st2, ref) => .ok (st2, ref, 201)
      | .error e => .error e
    else .error .validationError
  else .error .forbidden

/-- `MappingResource.patch` (lines 288-299): enforce, validate structure,
then update through the provider layer. -/
def mappingPatch {σ : Type} (enforce : String → Bool)
    (validate_mapping_structure : Dict → Bool)
    (update_mapping : σ → String → Dict → Except Err (σ × Dict))
    (st : σ) (mapping_id : String) (body : Dict) :
    Except Err (σ × Dict) :=
  if enforce "identity:update_mapping" then
    if validate_mapping_structure body then
      update_mapping st mapping_id body
    else .error .validationError
  else .error .forbidden

/-! ## Federated Aggregator (`OSFederationProjectResource` /
`OSFederationDomainResource`) -/

/-- `OSFederationProjectResource.get` (lines 387-414): enforce the policy
gate, read `user_id` and `group_ids` out of the ambient auth context, look
up projects for the user (swallowing `UserNotFound` only), look up projects
for the groups, and combine uniquely by id. Python truthiness of the
context values is preserved: an absent or empty `user_id` / `group_ids`
skips its lookup. `wrap_collection` is a presentation wrapper and the
combined list itself is returned. -/
def osFederationProjectGet (enforce : String → Bool)
    (list_projects_for_user : String → Except Err (List FRef))
    (list_projects_for_groups : List String → Except Err (List FRef))
    (userId : Option String) (groupIds : List String) :
    Except Err (List FRef) :=
  if enforce "identity:get_auth_projects" then
    match
      ((match userId with
        | some uid =>
          if uid = "" then .ok []
          else
            match list_projects_for_user uid with
            | .error .userNotFound => .ok []
            | .error e => .error e
            | .ok refs => .ok refs
        | none => .ok []) : Except Err (List FRef)) with
    | .error e => .error e
    | .ok user_refs =>
      match ((if groupIds = [] then .ok []
              else list_projects_for_groups groupIds) :
             Except Err (List FRef)) with
      | .error e => .error e
      | .ok group_refs => .ok (combine_lists_uniquely user_refs group_refs)
  else .error .forbidden

/-- `OSFederationDomainResource.get` (lines 421-448): identical control flow
with the domain lookups and the `identity:get_auth_domains` action. -/
def osFederationDomainGet (enforce : String → Bool)
    (list_domains_for_user : String → Except Err (List FRef))
    (list_domains_for_groups : List String → Except Err (List FRef))
    (userId : Option String) (groupIds : List String) :
    Except Err (List FRef) :=
  if enforce "identity:get_auth_domains" then
    match
      ((match userId with
        | some uid =>
          if uid = "" then .ok []
          else
            match list_domains_for_user uid with
            | .error .userNotFound => .ok []
            | .error e => .error e
            | .ok refs => .ok refs
        | none => .ok []) : Except Err (List FRef)) with
    | .error e => .error e
    | .ok user_refs =>
      match ((if groupIds = [] then .ok []
              else list_domains_for_groups groupIds) :
             Except Err (List FRef)) with
      | .error e => .error e
      | .ok group_refs => .ok (combine_lists_uniquely user_refs group_refs)
  else .error .forbidden

/-! ## SAML2 metadata endpoint -/

/-- `SAML2MetadataResource.get` (lines 451-467): read the file at
`CONF.saml.idp_metadata_path` (the reader and the configured path are
external collaborators), re-raising any read failure as the distinct
`MetadataFileError`; on success return the contents with status 200 and the
`Content-Type` header set to `text/xml` on top of flask's fresh-response
default headers. The endpoint is marked `unenforced_api` in the source and
consults no policy gate. -/
def saml2MetadataGet (readFileAt : String → Except String String)
    (idp_metadata_path : String) (defaults : Headers) :
    Except Err FlaskResp :=
  match readFileAt idp_metadata_path with
  | .error e => .error (.metadataFileError e)
  | .ok metadata =>
    .ok { status := 200, body := metadata,
          headers := aupsert defaults "Content-Type" "text/xml" }

/-! ## Claim theorems -/

/-- C10: for every identity provider id, protocol id and ambient request
context, the GET handler and the POST handler of the federated auth
endpoint are equivalent: both delegate to the same `_auth` function with
the same arguments and produce identical responses. -/
theorem authGet_eq_authPost (atok : AuthPayload → Env → WebobResp)
    (d : Headers) (env : Env) (idp_id protocol_id : String) :
    osFederationAuthGet atok d env idp_id protocol_id
      = osFederationAuthPost atok d env idp_id protocol_id := rfl

/-- C1 (amended): for every idp_id and every protocol_id other than the
reserved literal "methods", `_auth` synthesizes exactly the generic auth
payload of the claimed shape and submits it, together with the unchanged
ambient context, to the token pipeline; the payload's identity.methods is
[protocol_id] and its per-protocol object carries identity_provider =
idp_id and protocol = protocol_id; in particular this holds at
idp_id = "idp1", protocol_id = "saml2". (At protocol_id = "methods" the
two keys of the Python dict literal collide and the later entry
overwrites the methods list, see the counterexample.) -/
theorem auth_payload_shape (atok : AuthPayload → Env → WebobResp)
    (d : Headers) (env : Env) (idp_id protocol_id : String)
    (hp : protocol_id ≠ "methods") :
    osFederationAuthAuth atok d env idp_id protocol_id
      = flaskFromWebob d (atok (authPayloadSpec idp_id protocol_id)
          (construct_webob_request env))
    ∧ alookup (authPayloadCode idp_id protocol_id).identity "methods"
        = some (IdentVal.methodsList [protocol_id])
    ∧ alookup (authPayloadCode idp_id protocol_id).identity protocol_id
        = some (IdentVal.protoObj idp_id protocol_id)
    ∧ alookup (authPayloadCode "idp1" "saml2").identity "methods"
        = some (IdentVal.methodsList ["saml2"])
    ∧ alookup (authPayloadCode "idp1" "saml2").identity "saml2"
        = some (IdentVal.protoObj "idp1" "saml2") := by
  have hcode : authPayloadCode idp_id protocol_id
      = authPayloadSpec idp_id protocol_id := by
    simp [authPayloadCode, authPayloadSpec, aupsert, Ne.symm hp]
  refine ⟨?_, ?_, ?_, ?_, ?_⟩
  · simp [osFederationAuthAuth, hcode]
  · simp [hcode, authPayloadSpec, alookup]
  · simp [hcode, authPayloadSpec, alookup, Ne.symm hp]
  · decide
  · decide

/-- C1 witness: the amended shape theorem instantiated at idp_id = "idp1",
protocol_id = "saml2" with a concrete pipeline and context. -/
theorem auth_payload_shape_witness :
    alookup (authPayloadCode "idp1" "saml2").identity "methods"
      = some (IdentVal.methodsList ["saml2"])
    ∧ alookup (authPayloadCode "idp1" "saml2").identity "saml2"
      = some (IdentVal.protoObj "idp1" "saml2") :=
  ⟨(auth_payload_shape (fun _ _ => ⟨200, [], ""⟩) [] [] "idp1" "saml2"
      (by decide)).2.2.2.1,
   (auth_payload_shape (fun _ _ => ⟨200, [], ""⟩) [] [] "idp1" "saml2"
      (by decide)).2.2.2.2⟩

/-- C1 counterexample: at protocol_id = "methods" the Python dict literal's
two keys collide and the later per-protocol object overwrites the methods
list, so the synthesized payload's identity.methods is NOT [protocol_id]
as the claim states for every protocol_id. -/
theorem auth_payload_methods_collision :
    ¬ (alookup (authPayloadCode "idp1" "methods").identity "methods"
        = some (IdentVal.methodsList ["methods"])) := by decide

/-- C4: `_auth` translates the pipeline's webob response into the flask
response representation preserving the status code, carrying the body
byte-for-byte, and keeping every pipeline header present in the response
headers. -/
theorem bridge_translation_preserves (atok : AuthPayload → Env → WebobResp)
    (d : Headers) (env : Env) (idp_id protocol_id : String) :
    osFederationAuthAuth atok d env idp_id protocol_id
      = flaskFromWebob d (atok (authPayloadCode idp_id protocol_id)
          (construct_webob_request env))
    ∧ ∀ (w : WebobResp),
        (flaskFromWebob d w).status = w.status_code
        ∧ (flaskFromWebob d w).body = w.body
        ∧ ∀ h ∈ w.headers, h ∈ (flaskFromWebob d w).headers := by
  refine ⟨rfl, fun w => ⟨rfl, rfl, fun h hh => ?_⟩⟩
  simp [flaskFromWebob, hh]

/-- C4 witness: the translation theorem instantiated at a concrete pipeline
response with status 207, a marker header, and body "tok". -/
theorem bridge_translation_preserves_witness :
    (flaskFromWebob [("D", "d")] ⟨207, [("X-Subject-Token", "tok")], "tok"⟩).status
      = 207
    ∧ ("X-Subject-Token", "tok")
        ∈ (flaskFromWebob [("D", "d")]
            ⟨207, [("X-Subject-Token", "tok")], "tok"⟩).headers :=
  ⟨((bridge_translation_preserves
      (fun _ _ => ⟨207, [("X-Subject-Token", "tok")], "tok"⟩)
      [("D", "d")] [] "i" "p").2
        ⟨207, [("X-Subject-Token", "tok")], "tok"⟩).1,
   ((bridge_translation_preserves
      (fun _ _ => ⟨207, [("X-Subject-Token", "tok")], "tok"⟩)
      [("D", "d")] [] "i" "p").2
        ⟨207, [("X-Subject-Token", "tok")], "tok"⟩).2.2
      ("X-Subject-Token", "tok") (by decide)⟩

/-- C9: when the configured metadata file cannot be read the metadata
operation fails with the distinct MetadataFileError carrying the read
failure's reason (not a generic error); when the read succeeds the
response carries the file contents with status 200 and Content-Type
text/xml. -/
theorem metadata_get_behavior (readFileAt : String → Except String String)
    (path : String) (d : Headers) :
    (∀ e, readFileAt path = .error e →
      saml2MetadataGet readFileAt path d = .error (.metadataFileError e))
    ∧ (∀ s, readFileAt path = .ok s →
      ∃ r, saml2MetadataGet readFileAt path d = .ok r
        ∧ r.status = 200 ∧ r.body = s
        ∧ alookup r.headers "Content-Type" = some "text/xml") := by
  constructor
  · intro e he
    simp [saml2MetadataGet, he]
  · intro s hs
    refine ⟨{ status := 200, body := s,
              headers := aupsert d "Content-Type" "text/xml" },
            ?_, rfl, rfl, ?_⟩
    · simp [saml2MetadataGet, hs]
    · exact alookup_aupsert_self d "Content-Type" "text/xml"

/-- C9 witness: the metadata theorem instantiated with a reader that fails
with reason "unreadable" and with a reader that returns "<xml/>". -/
theorem metadata_get_behavior_witness :
    saml2MetadataGet (fun _ => .error "unreadable") "/etc/keystone/meta.xml" []
      = .error (.metadataFileError "unreadable")
    ∧ ∃ r, saml2MetadataGet (fun _ => .ok "<xml/>") "/etc/keystone/meta.xml" []
        = .ok r ∧ r.status = 200 ∧ r.body = "<xml/>"
        ∧ alookup r.headers "Content-Type" = some "text/xml" :=
  ⟨(metadata_get_behavior (fun _ => .error "unreadable")
      "/etc/keystone/meta.xml" []).1 "unreadable" rfl,
   (metadata_get_behavior (fun _ => .ok "<xml/>")
      "/etc/keystone/meta.xml" []).2 "<xml/>" rfl⟩

/-- C5: on every Mapping create and update the structural validator runs on
the submitted document before the store is invoked; a failed validation
aborts the operation with ValidationError, and no write occurs: the result
is independent of the store's create/update functions. -/
theorem mapping_validation_gates_writes {σ : Type} (enforce : String → Bool)
    (validate : Dict → Bool)
    (createM updateM : σ → String → Dict → Except Err (σ × Dict))
    (st : σ) (mapping_id : String) (body : Dict)
    (henf1 : enforce "identity:create_mapping" = true)
    (henf2 : enforce "identity:update_mapping" = true)
    (hval : validate body = false) :
    mappingPut enforce validate createM st mapping_id body
      = .error .validationError
    ∧ mappingPatch enforce validate updateM st mapping_id body
      = .error .validationError
    ∧ (∀ createM2, mappingPut enforce validate createM st mapping_id body
        = mappingPut enforce validate createM2 st mapping_id body)
    ∧ (∀ updateM2, mappingPatch enforce validate updateM st mapping_id body
        = mappingPatch enforce validate updateM2 st mapping_id body) := by
  simp [mappingPut, mappingPatch, henf1, henf2, hval]

/-- C5 witness: the gating theorem instantiated with a counter store and a
validator that rejects the submitted document. -/
theorem mapping_validation_gates_writes_witness :
    mappingPut (fun _ => true) (fun _ => false)
      (fun (n : Nat) _ d => .ok (n + 1, d)) 0 "m1" []
      = .error .validationError
    ∧ mappingPatch (fun _ => true) (fun _ => false)
      (fun (n : Nat) _ d => .ok (n + 1, d)) 0 "m1" []
      = .error .validationError :=
  ⟨(mapping_validation_gates_writes (fun _ => true) (fun _ => false)
      (fun (n : Nat) _ d => .ok (n + 1, d))
      (fun (n : Nat) _ d => .ok (n + 1, d)) 0 "m1" [] rfl rfl rfl).1,
   (mapping_validation_gates_writes (fun _ => true) (fun _ => false)
      (fun (n : Nat) _ d => .ok (n + 1, d))
      (fun (n : Nat) _ d => .ok (n + 1, d)) 0 "m1" [] rfl rfl rfl).2.1⟩

/-- C8 (amended): every registry CRUD operation and the project/domain
aggregation invoke the policy gate with their action before touching the
store or the lookups, and a forbid short-circuits the operation with
Forbidden before any mutation; the federated auth endpoint and the SAML2
metadata endpoint are deliberately unenforced (`unenforced_api` in the
source) and consult no gate at all. -/
theorem forbid_short_circuits {σ : Type} (enforce : String → Bool)
    (schemaOk : Dict → Bool) (st sps : Registry)
    (idp_id sp_id : String) (body spbody : Dict) (confRelay : String)
    (validate : Dict → Bool)
    (createM updateM : σ → String → Dict → Except Err (σ × Dict))
    (mst : σ) (mapping_id : String) (mbody : Dict)
    (lpu ldu : String → Except Err (List FRef))
    (lpg ldg : List String → Except Err (List FRef))
    (userId : Option String) (groupIds : List String) :
    (enforce "identity:create_identity_provider" = false →
      idpPut enforce schemaOk st idp_id body = .error .forbidden)
    ∧ (enforce "identity:get_identity_provider" = false →
      idpGet enforce st idp_id = .error .forbidden)
    ∧ (enforce "identity:create_service_provider" = false →
      spPut enforce schemaOk confRelay sps sp_id spbody = .error .forbidden)
    ∧ (enforce "identity:get_service_provider" = false →
      spGet enforce sps sp_id = .error .forbidden)
    ∧ (enforce "identity:create_mapping" = false →
      mappingPut enforce validate createM mst mapping_id mbody
        = .error .forbidden)
    ∧ (enforce "identity:update_mapping" = false →
      mappingPatch enforce validate updateM mst mapping_id mbody
        = .error .forbidden)
    ∧ (enforce "identity:get_auth_projects" = false →
      osFederationProjectGet enforce lpu lpg userId groupIds
        = .error .forbidden)
    ∧ (enforce "identity:get_auth_domains" = false →
      osFederationDomainGet enforce ldu ldg userId groupIds
        = .error .forbidden) := by
  refine ⟨?_, ?_, ?_, ?_, ?_, ?_, ?_, ?_⟩ <;> intro h
  · simp [idpPut, h]
  · simp [idpGet, h]
  · simp [spPut, h]
  · simp [spGet, h]
  · simp [mappingPut, h]
  · simp [mappingPatch, h]
  · simp [osFederationProjectGet, h]
  · simp [osFederationDomainGet, h]

/-- C8 witness: the amended gating theorem instantiated with a gate that
forbids everything. -/
theorem forbid_short_circuits_witness :
    idpPut (fun _ => false) (fun _ => true) [] "i1" [] = .error .forbidden
    ∧ osFederationProjectGet (fun _ => false) (fun _ => .ok [])
        (fun _ => .ok []) none [] = .error .forbidden :=
  ⟨(forbid_short_circuits (fun _ => false) (fun _ => true) [] [] "i1" "s1"
      [] [] "pfx" (fun _ => true)
      (fun (n : Nat) _ d => .ok (n + 1, d))
      (fun (n : Nat) _ d => .ok (n + 1, d)) 0 "m1" []
      (fun _ => .ok []) (fun _ => .ok [])
      (fun _ => .ok []) (fun _ => .ok []) none []).1 rfl,
   (forbid_short_circuits (fun _ => false) (fun _ => true) [] [] "i1" "s1"
      [] [] "pfx" (fun _ => true)
      (fun (n : Nat) _ d => .ok (n + 1, d))
      (fun (n : Nat) _ d => .ok (n + 1, d)) 0 "m1" []
      (fun _ => .ok []) (fun _ => .ok [])
      (fun _ => .ok []) (fun _ => .ok []) none []).2.2.2.2.2.2.1 rfl⟩

/-- C8 counterexample: the federated auth operation of this surface is not
gated at all — its embedding takes no enforcer, mirroring the
`unenforced_api` decorator in the source — so with a concrete pipeline the
bridge reaches the pipeline call and returns its (non-Forbidden) response
even though no policy gate ever allowed the action. This falsifies the
claim that no operation of the federation surface reaches its pipeline
call without a prior allow from the gate. -/
theorem auth_endpoint_unenforced :
    osFederationAuthAuth
      (fun _ _ => ⟨299, [("X-Marker", "reached")], "pipeline-called"⟩)
      [] [] "idp1" "saml2"
      = { status := 299, headers := [("X-Marker", "reached")],
          body := "pipeline-called" } := rfl

/-- C2: when both input lists are non-empty, `_combine_lists_uniquely`
returns a collection whose ids are exactly the union of the input ids with
no id appearing twice, each surviving entry being the last entry of
`a + b` carrying its id (last-seen wins); when at least one list is empty
the other list is returned as-is. In particular the two example inputs of
the spec behave as claimed. -/
theorem combine_lists_uniquely_spec (a b : List FRef) :
    (a ≠ [] → b ≠ [] →
      ((combine_lists_uniquely a b).map FRef.id).Nodup
      ∧ (∀ k, k ∈ (combine_lists_uniquely a b).map FRef.id ↔
          k ∈ a.map FRef.id ∨ k ∈ b.map FRef.id)
      ∧ (∀ x ∈ combine_lists_uniquely a b, lastWith (a ++ b) x.id = some x))
    ∧ (a = [] → combine_lists_uniquely a b = b)
    ∧ (b = [] → a ≠ [] → combine_lists_uniquely a b = a)
    ∧ (combine_lists_uniquely [⟨1, 10⟩, ⟨2, 20⟩] [⟨2, 21⟩, ⟨3, 30⟩]).map FRef.id
        = [1, 2, 3]
    ∧ combine_lists_uniquely [] [⟨5, 50⟩] = [⟨5, 50⟩] := by
  refine ⟨?_, ?_, ?_, by decide, by decide⟩
  · intro ha hb
    have hco : combine_lists_uniquely a b = (pyDict (a ++ b)).map Prod.snd := by
      simp [combine_lists_uniquely, ha, hb]
    have hpair : ∀ p ∈ pyDict (a ++ b), p.1 = p.2.id :=
      pairOk_pyDictAux [] (a ++ b) (by intro p hp; cases hp)
    have hnd : (akeys (pyDict (a ++ b))).Nodup :=
      nodup_akeys_pyDictAux [] (a ++ b) (by simp [akeys])
    have hids : ((pyDict (a ++ b)).map Prod.snd).map FRef.id
        = akeys (pyDict (a ++ b)) := ids_of_values _ hpair
    refine ⟨?_, ?_, ?_⟩
    · rw [hco, hids]; exact hnd
    · intro k
      rw [hco, hids]
      simp only [pyDict]
      rw [mem_akeys_pyDictAux]
      simp [akeys]
    · intro x hx
      rw [hco] at hx
      obtain ⟨p, hp, hsnd⟩ := List.mem_map.mp hx
      have hfst : p.1 = x.id := by rw [hpair p hp, hsnd]
      have hlook : alookup (pyDict (a ++ b)) p.1 = some p.2 :=
        alookup_mem_nodup _ p.1 p.2 hnd (by simpa using hp)
      simp only [pyDict] at hlook
      rw [alookup_pyDictAux] at hlook
      rw [hfst] at hlook
      cases hl : lastWith (a ++ b) x.id with
      | none => rw [hl] at hlook; simp [oalt, alookup] at hlook
      | some v =>
        rw [hl] at hlook
        simp only [oalt] at hlook
        rw [← hsnd]
        exact hlook
  · intro ha
    subst ha
    simp [combine_lists_uniquely]
  · intro hb ha
    subst hb
    simp [combine_lists_uniquely, ha]

/-- C2 witness: the combination theorem instantiated at the spec's two
example inputs. -/
theorem combine_lists_uniquely_spec_witness :
    ((combine_lists_uniquely [⟨1, 10⟩, ⟨2, 20⟩] [⟨2, 21⟩, ⟨3, 30⟩]).map
        FRef.id).Nodup
    ∧ combine_lists_uniquely ([] : List FRef) [⟨5, 50⟩] = [⟨5, 50⟩] :=
  ⟨((combine_lists_uniquely_spec [⟨1, 10⟩, ⟨2, 20⟩] [⟨2, 21⟩, ⟨3, 30⟩]).1
      (by decide) (by decide)).1,
   (combine_lists_uniquely_spec [] [⟨5, 50⟩]).2.1 rfl⟩

/-- C3: in both the project and the domain aggregation, a UserNotFound
raised by the per-user assignment lookup is swallowed (the operation
behaves exactly as if the user lookup had returned the empty list), any
other error from the per-user lookup propagates unchanged, and every error
from the per-group lookup propagates unchanged — whether a user id is
present or not. The suppression is thus confined to UserNotFound from the
user lookup. -/
theorem aggregation_swallows_only_userNotFound (enforce : String → Bool)
    (lpu ldu : String → Except Err (List FRef))
    (lpg ldg : List String → Except Err (List FRef))
    (uid : String) (groupIds : List String) (e : Err) :
    (lpu uid = .error .userNotFound →
      osFederationProjectGet enforce lpu lpg (some uid) groupIds
        = osFederationProjectGet enforce (fun _ => .ok []) lpg
            (some uid) groupIds)
    ∧ (enforce "identity:get_auth_projects" = true → uid ≠ "" →
      lpu uid = .error e → e ≠ .userNotFound →
      osFederationProjectGet enforce lpu lpg (some uid) groupIds = .error e)
    ∧ (∀ refs, enforce "identity:get_auth_projects" = true → uid ≠ "" →
      lpu uid = .ok refs → groupIds ≠ [] → lpg groupIds = .error e →
      osFederationProjectGet enforce lpu lpg (some uid) groupIds = .error e)
    ∧ (enforce "identity:get_auth_projects" = true → groupIds ≠ [] →
      lpg groupIds = .error e →
      osFederationProjectGet enforce lpu lpg none groupIds = .error e)
    ∧ (ldu uid = .error .userNotFound →
      osFederationDomainGet enforce ldu ldg (some uid) groupIds
        = osFederationDomainGet enforce (fun _ => .ok []) ldg
            (some uid) groupIds)
    ∧ (enforce "identity:get_auth_domains" = true → uid ≠ "" →
      ldu uid = .error e → e ≠ .userNotFound →
      osFederationDomainGet enforce ldu ldg (some uid) groupIds = .error e)
    ∧ (∀ refs, enforce "identity:get_auth_domains" = true → uid ≠ "" →
      ldu uid = .ok refs → groupIds ≠ [] → ldg groupIds = .error e →
      osFederationDomainGet enforce ldu ldg (some uid) groupIds = .error e)
    ∧ (enforce "identity:get_auth_domains" = true → groupIds ≠ [] →
      ldg groupIds = .error e →
      osFederationDomainGet enforce ldu ldg none groupIds = .error e) := by
  refine ⟨?_, ?_, ?_, ?_, ?_, ?_, ?_, ?_⟩
  · intro h
    by_cases huid : uid = "" <;>
      simp [osFederationProjectGet, huid, h]
  · intro henf huid hl hne
    cases e <;>
      simp_all [osFederationProjectGet, huid, hl, henf]
  · intro refs henf huid hl hg hge
    simp [osFederationProjectGet, henf, huid, hl, hg, hge]
  · intro henf hg hge
    simp [osFederationProjectGet, henf, hg, hge]
  · intro h
    by_cases huid : uid = "" <;>
      simp [osFederationDomainGet, huid, h]
  · intro henf huid hl hne
    cases e <;>
      simp_all [osFederationDomainGet, huid, hl, henf]
  · intro refs henf huid hl hg hge
    simp [osFederationDomainGet, henf, huid, hl, hg, hge]
  · intro henf hg hge
    simp [osFederationDomainGet, henf, hg, hge]

/-- C3 witness: the asymmetry theorem instantiated with a user lookup that
raises UserNotFound (swallowed) and a group lookup that raises a distinct
error (propagated). -/
theorem aggregation_swallows_only_userNotFound_witness :
    osFederationProjectGet (fun _ => true)
        (fun _ => .error .userNotFound) (fun _ => .ok []) (some "u1") ["g1"]
      = osFederationProjectGet (fun _ => true)
          (fun _ => .ok []) (fun _ => .ok []) (some "u1") ["g1"]
    ∧ osFederationProjectGet (fun _ => true)
        (fun _ => .ok []) (fun _ => .error (.other 42)) (some "u1") ["g1"]
      = .error (.other 42) :=
  ⟨(aggregation_swallows_only_userNotFound (fun _ => true)
      (fun _ => .error .userNotFound) (fun _ => .error .userNotFound)
      (fun _ => .ok []) (fun _ => .ok []) "u1" ["g1"] (.other 42)).1 rfl,
   (aggregation_swallows_only_userNotFound (fun _ => true)
      (fun _ => .ok []) (fun _ => .ok [])
      (fun _ => .error (.other 42)) (fun _ => .error (.other 42))
      "u1" ["g1"] (.other 42)).2.2.1 [] rfl (by decide) rfl
      (by decide) rfl⟩

/-- C6: an Identity Provider create whose input omits `enabled` stores and
returns a record with enabled = false, while a supplied `enabled` value is
preserved; a subsequent get of the same id returns the created record,
carrying the same id and the defaulted value. The store is the
spec-modelled keyed provider layer; the hypotheses state that the gate
allows the actions, the schema check passes, the id is fresh and no
`remote_ids` collision exists, i.e. that the create is the successful one
the claim describes. -/
theorem idp_create_defaults_enabled (enforce : String → Bool)
    (schemaOk : Dict → Bool) (st : Registry) (idp_id : String) (body : Dict)
    (henf : enforce "identity:create_identity_provider" = true)
    (hget : enforce "identity:get_identity_provider" = true)
    (hsch : schemaOk body = true)
    (hfresh : alookup st idp_id = none)
    (hnocol : st.any (fun p => (remoteIdsOf p.2).any
        (fun r => (remoteIdsOf
          (asetdefault body "enabled" (Val.vb false))).contains r)) = false) :
    ∃ st2 ref,
      idpPut enforce schemaOk st idp_id body = .ok (st2, ref, 201)
      ∧ alookup ref "id" = some (Val.vs idp_id)
      ∧ (alookup body "enabled" = none →
          alookup ref "enabled" = some (Val.vb false))
      ∧ (∀ v, alookup body "enabled" = some v →
          alookup ref "enabled" = some v)
      ∧ idpGet enforce st2 idp_id = .ok ref
      ∧ ∃ stored, get_idp st2 idp_id = .ok stored
          ∧ alookup stored "id" = some (Val.vs idp_id)
          ∧ (alookup body "enabled" = none →
              alookup stored "enabled" = some (Val.vb false))
          ∧ (∀ v, alookup body "enabled" = some v →
              alookup stored "enabled" = some v) := by
  set idp0 := asetdefault body "enabled" (Val.vb false) with hidp0def
  set ref0 := aupsert idp0 "id" (Val.vs idp_id) with href0def
  have hlook2 : alookup (st ++ [(idp_id, ref0)]) idp_id = some ref0 := by
    rw [alookup_append, hfresh]
    simp [alookup, oalt]
  have hen : alookup ref0 "enabled" = alookup idp0 "enabled" :=
    alookup_aupsert_ne idp0 "id" "enabled" (Val.vs idp_id)
      (by decide : ("enabled" : String) ≠ "id")
  have hen_none : alookup body "enabled" = none →
      alookup ref0 "enabled" = some (Val.vb false) := by
    intro hnone
    rw [hen, hidp0def]
    exact alookup_asetdefault_none body "enabled" (Val.vb false) hnone
  have hen_some : ∀ v, alookup body "enabled" = some v →
      alookup ref0 "enabled" = some v := by
    intro v hv
    rw [hen, hidp0def, asetdefault_some body "enabled" (Val.vb false) v hv]
    exact hv
  refine ⟨st ++ [(idp_id, ref0)], filterKeys idpPublicParams ref0,
      ?_, ?_, ?_, ?_, ?_, ref0, ?_, ?_, hen_none, hen_some⟩
  · have hnocol2 : (st.any fun p => (remoteIdsOf p.2).any
        fun r => (remoteIdsOf
          (asetdefault body "enabled" (Val.vb false))).contains r) = false :=
      hnocol
    simp only [idpPut, create_idp, henf, hsch, hfresh, if_true]
    rw [hnocol2]
    simp [hidp0def, href0def]
  · rw [alookup_filterKeys,
      if_pos (by decide : ("id" : String) ∈ idpPublicParams)]
    exact alookup_aupsert_self idp0 "id" (Val.vs idp_id)
  · intro hnone
    rw [alookup_filterKeys,
      if_pos (by decide : ("enabled" : String) ∈ idpPublicParams)]
    exact hen_none hnone
  · intro v hv
    rw [alookup_filterKeys,
      if_pos (by decide : ("enabled" : String) ∈ idpPublicParams)]
    exact hen_some v hv
  · simp [idpGet, hget, get_idp, hlook2]
  · simp [get_idp, hlook2]
  · exact alookup_aupsert_self idp0 "id" (Val.vs idp_id)

/-- C6 witness: the defaulting theorem instantiated with an empty registry
and a body omitting `enabled`. -/
theorem idp_create_defaults_enabled_witness :
    ∃ st2 ref,
      idpPut (fun _ => true) (fun _ => true) [] "idp1" [] = .ok (st2, ref, 201)
      ∧ alookup ref "id" = some (Val.vs "idp1")
      ∧ (alookup ([] : Dict) "enabled" = none →
          alookup ref "enabled" = some (Val.vb false))
      ∧ (∀ v, alookup ([] : Dict) "enabled" = some v →
          alookup ref "enabled" = some v)
      ∧ idpGet (fun _ => true) st2 "idp1" = .ok ref
      ∧ ∃ stored, get_idp st2 "idp1" = .ok stored
          ∧ alookup stored "id" = some (Val.vs "idp1")
          ∧ (alookup ([] : Dict) "enabled" = none →
              alookup stored "enabled" = some (Val.vb false))
          ∧ (∀ v, alookup ([] : Dict) "enabled" = some v →
              alookup stored "enabled" = some v) :=
  idp_create_defaults_enabled (fun _ => true) (fun _ => true) [] "idp1" []
    rfl rfl rfl rfl rfl

/-- C7: a Service Provider create whose input omits `enabled` stores a
record with enabled = false, and one whose input omits
`relay_state_prefix` stores the process-wide configured default for that
field; supplied values for either field are preserved unchanged. The store
is the spec-modelled keyed provider layer; the hypotheses state that the
gate allows the action, the schema check passes and the id is fresh. -/
theorem sp_create_defaults (enforce : String → Bool)
    (schemaOk : Dict → Bool) (confRelay : String) (st : Registry)
    (sp_id : String) (body : Dict)
    (henf : enforce "identity:create_service_provider" = true)
    (hsch : schemaOk body = true)
    (hfresh : alookup st sp_id = none) :
    ∃ st2 ref,
      spPut enforce schemaOk confRelay st sp_id body = .ok (st2, ref, 201)
      ∧ (alookup body "enabled" = none →
          alookup ref "enabled" = some (Val.vb false))
      ∧ (∀ v, alookup body "enabled" = some v →
          alookup ref "enabled" = some v)
      ∧ (alookup body "relay_state_prefix" = none →
          alookup ref "relay_state_prefix" = some (Val.vs confRelay))
      ∧ (∀ v, alookup body "relay_state_prefix" = some v →
          alookup ref "relay_state_prefix" = some v)
      ∧ ∃ stored, get_sp st2 sp_id = .ok stored
          ∧ alookup stored "id" = some (Val.vs sp_id)
          ∧ (alookup body "enabled" = none →
              alookup stored "enabled" = some (Val.vb false))
          ∧ (alookup body "relay_state_prefix" = none →
              alookup stored "relay_state_prefix" = some (Val.vs confRelay)) := by
  set sp0 := asetdefault body "enabled" (Val.vb false) with hsp0def
  set sp1 := asetdefault sp0 "relay_state_prefix" (Val.vs confRelay)
    with hsp1def
  set ref0 := aupsert sp1 "id" (Val.vs sp_id) with href0def
  have hlook2 : alookup (st ++ [(sp_id, ref0)]) sp_id = some ref0 := by
    rw [alookup_append, hfresh]
    simp [alookup, oalt]
  have hen1 : alookup ref0 "enabled" = alookup sp1 "enabled" :=
    alookup_aupsert_ne sp1 "id" "enabled" (Val.vs sp_id)
      (by decide : ("enabled" : String) ≠ "id")
  have hen2 : alookup sp1 "enabled" = alookup sp0 "enabled" := by
    rw [hsp1def]
    exact alookup_asetdefault_ne sp0 "relay_state_prefix" "enabled"
      (Val.vs confRelay)
      (by decide : ("enabled" : String) ≠ "relay_state_prefix")
  have hen_none : alookup body "enabled" = none →
      alookup ref0 "enabled" = some (Val.vb false) := by
    intro hnone
    rw [hen1, hen2, hsp0def]
    exact alookup_asetdefault_none body "enabled" (Val.vb false) hnone
  have hen_some : ∀ v, alookup body "enabled" = some v →
      alookup ref0 "enabled" = some v := by
    intro v hv
    rw [hen1, hen2, hsp0def,
      asetdefault_some body "enabled" (Val.vb false) v hv]
    exact hv
  have hrel1 : alookup ref0 "relay_state_prefix"
      = alookup sp1 "relay_state_prefix" :=
    alookup_aupsert_ne sp1 "id" "relay_state_prefix" (Val.vs sp_id)
      (by decide : ("relay_state_prefix" : String) ≠ "id")
  have hrel0 : alookup sp0 "relay_state_prefix"
      = alookup body "relay_state_prefix" := by
    rw [hsp0def]
    exact alookup_asetdefault_ne body "enabled" "relay_state_prefix"
      (Val.vb false)
      (by decide : ("relay_state_prefix" : String) ≠ "enabled")
  have hrel_none : alookup body "relay_state_prefix" = none →
      alookup ref0 "relay_state_prefix" = some (Val.vs confRelay) := by
    intro hnone
    rw [hrel1, hsp1def]
    exact alookup_asetdefault_none sp0 "relay_state_prefix"
      (Val.vs confRelay) (hrel0.trans hnone)
  have hrel_some : ∀ v, alookup body "relay_state_prefix" = some v →
      alookup ref0 "relay_state_prefix" = some v := by
    intro v hv
    rw [hrel1, hsp1def, asetdefault_some sp0 "relay_state_prefix"
      (Val.vs confRelay) v (hrel0.trans hv)]
    exact hrel0.trans hv
  have hfen_none : alookup body "enabled" = none →
      alookup (filterKeys spPublicParams ref0) "enabled"
        = some (Val.vb false) := by
    intro hnone
    rw [alookup_filterKeys,
      if_pos (by decide : ("enabled" : String) ∈ spPublicParams)]
    exact hen_none hnone
  have hfen_some : ∀ v, alookup body "enabled" = some v →
      alookup (filterKeys spPublicParams ref0) "enabled" = some v := by
    intro v hv
    rw [alookup_filterKeys,
      if_pos (by decide : ("enabled" : String) ∈ spPublicParams)]
    exact hen_some v hv
  have hfrel_none : alookup body "relay_state_prefix" = none →
      alookup (filterKeys spPublicParams ref0) "relay_state_prefix"
        = some (Val.vs confRelay) := by
    intro hnone
    rw [alookup_filterKeys,
      if_pos (by decide : ("relay_state_prefix" : String) ∈ spPublicParams)]
    exact hrel_none hnone
  have hfrel_some : ∀ v, alookup body "relay_state_prefix" = some v →
      alookup (filterKeys spPublicParams ref0) "relay_state_prefix"
        = some v := by
    intro v hv
    rw [alookup_filterKeys,
      if_pos (by decide : ("relay_state_prefix" : String) ∈ spPublicParams)]
    exact hrel_some v hv
  refine ⟨st ++ [(sp_id, ref0)], filterKeys spPublicParams ref0,
      ?_, hfen_none, hfen_some, hfrel_none, hfrel_some,
      ref0, ?_, ?_, hen_none, hrel_none⟩
  · simp [spPut, create_sp, henf, hsch, hfresh, hsp0def, hsp1def, href0def]
  · simp [get_sp, hlook2]
  · exact alookup_aupsert_self sp1 "id" (Val.vs sp_id)

/-- C7 witness: the defaulting theorem instantiated with an empty registry
and a body omitting both fields. -/
theorem sp_create_defaults_witness :
    ∃ st2 ref,
      spPut (fun _ => true) (fun _ => true) "ss:mem:" [] "sp1" []
        = .ok (st2, ref, 201)
      ∧ (alookup ([] : Dict) "enabled" = none →
          alookup ref "enabled" = some (Val.vb false))
      ∧ (∀ v, alookup ([] : Dict) "enabled" = some v →
          alookup ref "enabled" = some v)
      ∧ (alookup ([] : Dict) "relay_state_prefix" = none →
          alookup ref "relay_state_prefix" = some (Val.vs "ss:mem:"))
      ∧ (∀ v, alookup ([] : Dict) "relay_state_prefix" = some v →
          alookup ref "relay_state_prefix" = some v)
      ∧ ∃ stored, get_sp st2 "sp1" = .ok stored
          ∧ alookup stored "id" = some (Val.vs "sp1")
          ∧ (alookup ([] : Dict) "enabled" = none →
              alookup stored "enabled" = some (Val.vb false))
          ∧ (alookup ([] : Dict) "relay_state_prefix" = none →
              alookup stored "relay_state_prefix" = some (Val.vs "ss:mem:")) :=
  sp_create_defaults (fun _ => true) (fun _ => true) "ss:mem:" [] "sp1" []
    rfl rfl rfl

end OSFed
